import Mathlib

/-!
Shallow embedding of `mopidy_youtube/youtube.py` (Video/Playlist async
metadata loading): the per-field future model (`_set_api_data`), the
batch loader chunking (`load_info`), the LRU entity cache (`Entry.get`),
the pafy audio-url job, the playlist member-expansion loop
(`Playlist.videos`) and the dynamic thread pool (`ThreadPool`).
-/

namespace MopidyYoutube

/-- A value stored in a field's future (`None` in Python is `null`). -/
inductive Value where
  | null
  | str (s : String)
  | num (n : Nat)
  | strList (l : List String)
deriving DecidableEq, Repr

/-- State of one per-field `pykka.ThreadingFuture` cell of an entity:
`unset` = the `_field` attribute does not exist yet; `pending` = the future
exists but `future._queue` is empty (no `set` yet); `resolved v` = `set(v)`
has been called. -/
inductive FieldState where
  | unset
  | pending
  | resolved (v : Value)
deriving DecidableEq, Repr

/-- The per-entity mapping from field name to future state
(`self.__dict__` restricted to the `_field` slots). -/
def FieldMap : Type := String → FieldState

instance : CoeFun FieldMap (fun _ => String → FieldState) := ⟨fun f => f⟩

/-- Entity with no futures created yet (fresh `Video()`/`Playlist()`). -/
def emptyFM : FieldMap := fun _ => FieldState.unset

/-- Update one field slot. -/
def setF (fm : FieldMap) (k : String) (s : FieldState) : FieldMap :=
  fun x => if x = k then s else fm x

/-- Python exceptions that can escape the modelled code. -/
inductive PyErr where
  | keyError (k : String)
  | attrError
  | nameError
deriving DecidableEq, Repr

/-- The `item['snippet']` sub-record of an API response item; each key may be
absent (Python dict access then raises `KeyError`). -/
structure Snippet where
  title : Option String
  channelTitle : Option String
  thumbnails : Option (List (String × String))
deriving DecidableEq, Repr

/-- The `item['contentDetails']` sub-record of an API response item. -/
structure ContentDetails where
  duration : Option String
  itemCount : Option Nat
deriving DecidableEq, Repr

/-- One API response item as read by `_set_api_data`. -/
structure Item where
  id : Option String
  snippet : Option Snippet
  contentDetails : Option ContentDetails
deriving DecidableEq, Repr

/-- Digits-to-number, as Python `int` on a nonempty digit string. -/
def digitsToNat (ds : List Char) : Nat :=
  ds.foldl (fun a c => a * 10 + (c.toNat - 48)) 0

/-- One optional regex group `((\d+)X)?` at the current position: match a
maximal digit run followed by the literal delimiter, else match empty and
consume nothing (the delimiters are not digits, so regex backtracking
inside `\d+` can never help). -/
def parseComp (delim : Char) (cs : List Char) : Option Nat × List Char :=
  let ds := cs.takeWhile Char.isDigit
  match cs.dropWhile Char.isDigit with
  | c :: rest => if ds ≠ [] ∧ c = delim then (some (digitsToNat ds), rest) else (none, cs)
  | [] => (none, cs)

/-- Model of `re.search` locating the leftmost occurrence of the literal `PT` (the
rest of the pattern is all-optional, so the match succeeds at the first
`PT`); returns the suffix after it, or `none` when the string has no `PT`
(then `re.search` returns `None` and `m.group` raises `AttributeError`). -/
def findPT : List Char → Option (List Char)
  | 'P' :: 'T' :: rest => some rest
  | _ :: rest => findPT rest
  | [] => none

/-- Model of `re.search('PT((?P<hours>\d+)H)?((?P<minutes>\d+)M)?((?P<seconds>\d+)S)?', s)`
followed by `hours*3600 + minutes*60 + seconds` with missing groups as 0;
`none` models the `AttributeError` raised when the string contains no `PT`. -/
def parseDuration (s : String) : Option Nat :=
  match findPT s.toList with
  | none => none
  | some rest =>
    let (h, r1) := parseComp 'H' rest
    let (m, r2) := parseComp 'M' r1
    let (sec, _) := parseComp 'S' r2
    some ((h.getD 0) * 3600 + (m.getD 0) * 60 + sec.getD 0)

/-- The `elif` chain of `_set_api_data` computing `val` for one field `k`
from a present item (`item` truthy). `mV` is `self.max_videos`. -/
def decodeVal (mV : Nat) (k : String) (it : Item) : Except PyErr Value :=
  if k = "title" then
    match it.snippet with
    | none => .error (.keyError "snippet")
    | some sn =>
      match sn.title with
      | none => .error (.keyError "title")
      | some t => .ok (.str t)
  else if k = "channel" then
    match it.snippet with
    | none => .error (.keyError "snippet")
    | some sn =>
      match sn.channelTitle with
      | none => .error (.keyError "channelTitle")
      | some c => .ok (.str c)
  else if k = "length" then
    match it.contentDetails with
    | none => .error (.keyError "contentDetails")
    | some cd =>
      match cd.duration with
      | none => .error (.keyError "duration")
      | some s =>
        match parseDuration s with
        | none => .error .attrError
        | some n => .ok (.num n)
  else if k = "video_count" then
    match it.contentDetails with
    | none => .error (.keyError "contentDetails")
    | some cd =>
      match cd.itemCount with
      | none => .error (.keyError "itemCount")
      | some n => .ok (.num (min n mV))
  else if k = "thumbnails" then
    match it.snippet with
    | none => .error (.keyError "snippet")
    | some sn =>
      match sn.thumbnails with
      | none => .error (.keyError "thumbnails")
      | some th =>
        .ok (.strList ((th.filter (fun p => p.1 == "medium" || p.1 == "high")).map Prod.snd))
  else .error .nameError

/-- One iteration of the `for k in fields` loop of `Entry._set_api_data`:
if the future exists and its queue is non-empty (`resolved`), `continue`;
otherwise the future is (created if needed and) set to the decoded value —
unless decoding raises, in which case the (possibly fresh) future is left
pending and the exception escapes. -/
def set_api_data_one (mV : Nat) (k : String) (item : Option Item) (fm : FieldMap) :
    FieldMap × Option PyErr :=
  match fm k with
  | .resolved _ => (fm, none)
  | _ =>
    match item with
    | none => (setF fm k (.resolved .null), none)
    | some it =>
      match decodeVal mV k it with
      | .ok v => (setF fm k (.resolved v), none)
      | .error e => (setF fm k .pending, some e)

/-- Model of `Entry._set_api_data(fields, item)`: process the fields in order; an
exception aborts the loop, keeping the updates already made. -/
def set_api_data (mV : Nat) (fields : List String) (item : Option Item) (fm : FieldMap) :
    FieldMap × Option PyErr :=
  match fields with
  | [] => (fm, none)
  | k :: ks =>
    match set_api_data_one mV k item fm with
    | (fm1, none) => set_api_data mV ks item fm1
    | (fm1, some e) => (fm1, some e)

/-- One `add(obj)` call of `Entry._add_futures`: for each field in order,
if the `_field` slot is absent create an empty future (state `pending`);
returns the updated slots and whether any future was added. -/
def addOne : List String → FieldMap → FieldMap × Bool
  | [], fm => (fm, false)
  | k :: ks, fm =>
    match fm k with
    | .unset => ((addOne ks (setF fm k .pending)).1, true)
    | _ => addOne ks fm

/-- The process-wide map from entity id to its field slots (objects are
shared: two list positions with the same id alias one object). -/
def Store : Type := String → FieldMap

instance : CoeFun Store (fun _ => String → FieldMap) := ⟨fun f => f⟩

def updStore (st : Store) (id : String) (fm : FieldMap) : Store :=
  fun x => if x = id then fm else st x

/-- Model of `Entry._add_futures(list, fields)`: `filter(add, list)` — runs `add`
on every object in order (mutating the store) and keeps the ids for which
at least one future was added. -/
def add_futures (fields : List String) : List String → Store → Store × List String
  | [], st => (st, [])
  | id :: ids, st =>
    let r := addOne fields (st id)
    let rest := add_futures fields ids (updStore st id r.1)
    (rest.1, if r.2 then id :: rest.2 else rest.2)

/-- The `for i in range(0, len(list), 50): list[i:i+50]` slicing of
`load_info`: successive contiguous slices of 50. -/
def chunks50 {α : Type} : List α → List (List α)
  | [] => []
  | x :: xs => (x :: xs).take 50 :: chunks50 ((x :: xs).drop 50)
termination_by l => l.length
decreasing_by
  simp only [List.length_drop, List.length_cons]
  omega

/-- The sublists passed to `ThreadPool.run(job, (sublist,))` by
`Video.load_info` / `Playlist.load_info`: filter via `_add_futures`,
then chunk the filtered list 50 at a time. -/
def load_info_calls (fields : List String) (ids : List String) (st : Store) :
    List (List String) :=
  chunks50 (add_futures fields ids st).2

/-- One entity of a chunk: its id and its field slots. -/
structure EntState where
  id : String
  fm : FieldMap

/-- The `for video in sublist: video._set_api_data(fields, dict.get(video.id))`
loop of `load_info.job` (outside the `try`): an exception aborts the loop,
entities after it keep their old state. `d` is the id-to-item dict. -/
def chunkJob (mV : Nat) (fields : List String) (d : String → Option Item) :
    List EntState → List EntState × Option PyErr
  | [] => ([], none)
  | e :: es =>
    match set_api_data mV fields (d e.id) e.fm with
    | (fm1, some er) => (⟨e.id, fm1⟩ :: es, some er)
    | (fm1, none) =>
      let r := chunkJob mV fields d es
      (⟨e.id, fm1⟩ :: r.1, r.2)

/-- The dict built in the `except` branch of `load_info.job`
(`dict = {}`): every lookup misses. -/
def failDict : String → Option Item := fun _ => none

/-! ### `Entry.get` with `func.lru_cache(maxsize=400)` (C5) -/

/-- Value of `Entry.cache_max_len`, the `maxsize` of `func.lru_cache`. -/
def cache_max_len : Nat := 400

/-- The LRU cache state of the decorated `get`: entries most-recent-first,
each key mapped to the tag (creation index) of the object stored for it;
`next` numbers the objects created so far, so tag equality models Python
object identity. -/
structure CacheState where
  entries : List (Nat × Nat)
  next : Nat
deriving DecidableEq, Repr

def initCache : CacheState := ⟨[], 0⟩

/-- Model of `Entry.get(id)` under `func.lru_cache(maxsize=cache_max_len)`: on a
hit, refresh recency and return the cached object; on a miss, create a
fresh object (`cls(); obj.id = id`), insert it most-recent, and evict the
least-recently-used entry when over capacity. Keys are modelled as `Nat`
(ids are opaque). Returns (object tag, new cache state). -/
def lruGet (k : Nat) (st : CacheState) : Nat × CacheState :=
  match st.entries.lookup k with
  | some tag => (tag, ⟨(k, tag) :: st.entries.eraseP (fun p => p.1 == k), st.next⟩)
  | none =>
    let es := (k, st.next) :: st.entries
    (st.next, ⟨if cache_max_len < es.length then es.dropLast else es, st.next + 1⟩)

/-- A sequence of `get` calls, returning the final cache state. -/
def runGets (ks : List Nat) (st : CacheState) : CacheState :=
  ks.foldl (fun s k => (lruGet k s).2) st

/-! ### `Video.audio_url` job (C6) -/

/-- What the pafy collaborator does for one id: `fail` = `pafy.new`
raises; otherwise the url of `getbestaudio('m4a', True)` and of
`getbest('m4a', True)`, each possibly `None`. -/
inductive PafyResult where
  | fail
  | ok (bestaudio : Option String) (best : Option String)
deriving DecidableEq, Repr

inductive LogLevel where
  | error
  | warning
deriving DecidableEq, Repr

/-- Observable outcome of the `audio_url` job: the final state of the
`_audio_url` future, the log records emitted by the job itself, and
whether an exception escaped the job (to the pool's wrapper). -/
structure AudioOutcome where
  field : FieldState
  logs : List LogLevel
  raised : Bool
deriving DecidableEq, Repr

/-- The `job` of `Video.audio_url`: `pafy.new` failure is caught, logged
via `logger.error` and resolves the future to `None`; otherwise
`uri = getbestaudio or getbest`, and `uri.url` — which, when both are
`None`, raises `AttributeError` out of the job, leaving the future
pending forever. -/
def audio_url_job (p : PafyResult) : AudioOutcome :=
  match p with
  | .fail => ⟨.resolved .null, [.error], false⟩
  | .ok bestaudio best =>
    match bestaudio with
    | some u => ⟨.resolved (.str u), [], false⟩
    | none =>
      match best with
      | some u => ⟨.resolved (.str u), [], false⟩
      | none => ⟨.pending, [], true⟩

/-! ### `Playlist.videos` member-expansion loop (C7, C10) -/

/-- One response of `API.list_playlistitems`: the optional
`nextPageToken` and the page's member video ids. -/
structure PageData where
  nextPageToken : Option String
  items : List String
deriving DecidableEq, Repr

/-- Model of `data.get('nextPageToken') or None`: an absent key or JSON null gives
`None`, the empty string is falsy and also gives `None`; only a non-empty
string survives. -/
def tokenOrNone (t : Option String) : Option String :=
  match t with
  | none => none
  | some s => if s = "" then none else some s

/-- Why the `while` loop of `Playlist.videos.job` stopped. -/
inductive StopCause where
  | maxReached
  | noToken
  | apiFail
deriving DecidableEq, Repr

/-- The `while page is not None and len(all_videos) < max_videos` loop of
`Playlist.videos.job`, fuelled: `oracle i` is the response of the i-th
`API.list_playlistitems` call (`none` = it raised). State: `pAv` is
`page is not None`, `i` the next request index, `acc` = `all_videos`.
Returns the accumulated ids, the stop cause and the number of requests
made; `none` when the fuel ran out before the loop stopped. -/
def videosRun (maxV : Nat) (oracle : Nat → Option PageData) :
    Nat → Bool → Nat → List String → Option (List String × StopCause × Nat)
  | 0, _, _, _ => none
  | fuel + 1, pAv, i, acc =>
    if pAv = false then some (acc, .noToken, i)
    else if maxV ≤ acc.length then some (acc, .maxReached, i)
    else
      match oracle i with
      | none => some (acc, .apiFail, i)
      | some d =>
        videosRun maxV oracle fuel (tokenOrNone d.nextPageToken).isSome (i + 1)
          (acc ++ d.items)

/-- Model of `self._videos.set(all_videos)` at the end of the job: the `_videos`
future resolves to the accumulated list (pending while the fuelled run is
not finished). -/
def videosField (maxV : Nat) (oracle : Nat → Option PageData) (fuel : Nat) : FieldState :=
  match videosRun maxV oracle fuel true 0 [] with
  | some r => .resolved (.strList r.1)
  | none => .pending

/-! ### `ThreadPool` (C8) -/

/-- Value of `ThreadPool.threads_max`. -/
def threads_max : Nat := 15

/-- The shared pool state: `jobs = len(cls.jobs)`,
`active = cls.threads_active`. -/
structure PoolState where
  jobs : Nat
  active : Nat
deriving DecidableEq, Repr

/-- Atomic transitions of `ThreadPool` (each is one critical section
under `cls.lock`): `run` appends a job and spawns a worker only when
`threads_active < threads_max`; `popJob` is a worker taking a job from a
non-empty queue; `exitWorker` is a worker finding the queue empty,
decrementing `threads_active` and terminating. -/
inductive PoolStep : PoolState → PoolState → Prop where
  | run (s : PoolState) :
      PoolStep s ⟨s.jobs + 1, if s.active < threads_max then s.active + 1 else s.active⟩
  | popJob (s : PoolState) : 0 < s.jobs → PoolStep s ⟨s.jobs - 1, s.active⟩
  | exitWorker (s : PoolState) : s.jobs = 0 → 0 < s.active → PoolStep s ⟨s.jobs, s.active - 1⟩

/-- States reachable from the initial pool state (no jobs, no workers). -/
inductive PoolReachable : PoolState → Prop where
  | init : PoolReachable ⟨0, 0⟩
  | step {s t : PoolState} : PoolReachable s → PoolStep s t → PoolReachable t

/-! ### `Entry.search` seeding and the `async_property` accessor (C9) -/

/-- Model of `create_object` of `Entry.search` for a video item:
`obj._set_api_data(['title', 'channel'], item)` on the cached object. -/
def searchSeedVideo (mV : Nat) (it : Item) (fm : FieldMap) : FieldMap × Option PyErr :=
  set_api_data mV ["title", "channel"] (some it) fm

/-- Model of `create_object` of `Entry.search` for a playlist item:
`obj._set_api_data(['title', 'channel', 'thumbnails'], item)`. -/
def searchSeedPlaylist (mV : Nat) (it : Item) (fm : FieldMap) : FieldMap × Option PyErr :=
  set_api_data mV ["title", "channel", "thumbnails"] (some it) fm

/-- The `async_property` wrapper: the loader body (which enqueues a
batched `load_info`) runs exactly when the `_field` slot is absent. -/
def accessTriggersLoad (k : String) (fm : FieldMap) : Bool :=
  match fm k with
  | .unset => true
  | _ => false

/-- Model of the read: `future.get()` returns without blocking exactly when the future is
already resolved. -/
def readyNow (k : String) (fm : FieldMap) : Bool :=
  match fm k with
  | .resolved _ => true
  | _ => false

/-- The loop stopped because `page` became `None`: at least one request
was made and the last processed response carried a falsy
`nextPageToken`. -/
def tokStop (oracle : Nat → Option PageData) (i : Nat) : Prop :=
  0 < i ∧ ∃ d, oracle (i - 1) = some d ∧ tokenOrNone d.nextPageToken = none

/-- A remote collection serving endless one-item pages with a
continuation token (used to witness termination via the max cap). -/
def oracleEndless : Nat → Option PageData := fun _ => some ⟨some "tok", ["a"]⟩

/-- A remote collection whose first page carries no continuation token. -/
def oracleOnePage : Nat → Option PageData := fun _ => some ⟨none, ["a", "b"]⟩

/-! ## Theorems -/

theorem setF_same (fm : FieldMap) (k : String) (s : FieldState) : setF fm k s k = s := by
  simp [setF]

theorem setF_other (fm : FieldMap) (k x : String) (s : FieldState) (h : x ≠ k) :
    setF fm k s x = fm x := by
  simp [setF, h]

theorem set_api_data_one_preserves (mV : Nat) (k : String) (item : Option Item)
    (fm : FieldMap) (k0 : String) (v : Value) (h : fm k0 = .resolved v) :
    ((set_api_data_one mV k item fm).1) k0 = .resolved v := by
  unfold set_api_data_one
  cases hfm : fm k with
  | resolved w => simpa using h
  | unset =>
    have hk : k0 ≠ k := by
      intro e
      rw [e, hfm] at h
      cases h
    cases item with
    | none => simpa [setF, hk] using h
    | some it =>
      cases hd : decodeVal mV k it with
      | ok v2 => simpa [hd, setF, hk] using h
      | error e => simpa [hd, setF, hk] using h
  | pending =>
    have hk : k0 ≠ k := by
      intro e
      rw [e, hfm] at h
      cases h
    cases item with
    | none => simpa [setF, hk] using h
    | some it =>
      cases hd : decodeVal mV k it with
      | ok v2 => simpa [hd, setF, hk] using h
      | error e => simpa [hd, setF, hk] using h

theorem set_api_data_preserves (mV : Nat) (fields : List String) (item : Option Item)
    (fm : FieldMap) (k0 : String) (v : Value) (h : fm k0 = .resolved v) :
    ((set_api_data mV fields item fm).1) k0 = .resolved v := by
  induction fields generalizing fm with
  | nil => simpa [set_api_data] using h
  | cons k ks ih =>
    have h1 := set_api_data_one_preserves mV k item fm k0 v h
    unfold set_api_data
    cases hr : set_api_data_one mV k item fm with
    | mk fm1 err =>
      rw [hr] at h1
      cases err with
      | none => exact ih fm1 h1
      | some e => simpa using h1

/-- C1: once a field of an entity is resolved, any later
`_set_api_data` write to that field — from any loader path, with any
item — is a no-op: the stored value never changes. -/
theorem resolved_field_never_changes (mV : Nat) (fields : List String) (item : Option Item)
    (fm : FieldMap) (k0 : String) (v : Value) (h : fm k0 = .resolved v) :
    ((set_api_data mV fields item fm).1) k0 = .resolved v :=
  set_api_data_preserves mV fields item fm k0 v h

/-- Witness for C1 at a concrete input: a `title` already resolved to
`"A"` survives a later null write of `['title', 'channel']`. -/
theorem resolved_field_never_changes_witness :
    ((set_api_data 60 ["title", "channel"] none
        (setF emptyFM "title" (.resolved (.str "A")))).1) "title" = .resolved (.str "A") :=
  resolved_field_never_changes 60 ["title", "channel"] none
    (setF emptyFM "title" (.resolved (.str "A"))) "title" (.str "A") (by decide)

theorem set_api_data_none_ok (mV : Nat) (fields : List String) (fm : FieldMap) :
    (set_api_data mV fields none fm).2 = none := by
  induction fields generalizing fm with
  | nil => rfl
  | cons k ks ih =>
    unfold set_api_data set_api_data_one
    cases hfm : fm k with
    | resolved w => exact ih fm
    | unset => exact ih _
    | pending => exact ih _

theorem set_api_data_none_fields (mV : Nat) (fields : List String) (fm : FieldMap) :
    ∀ k ∈ fields, ((set_api_data mV fields none fm).1) k =
      match fm k with
      | .resolved v => .resolved v
      | _ => .resolved .null := by
  induction fields generalizing fm with
  | nil => intro k hk; cases hk
  | cons k0 ks ih =>
    intro k hk
    rw [List.mem_cons] at hk
    unfold set_api_data set_api_data_one
    cases hfm : fm k0 with
    | resolved w =>
      rcases hk with rfl | hk
      · rw [hfm]
        exact set_api_data_preserves mV ks none fm k w hfm
      · exact ih fm k hk
    | unset =>
      rcases hk with rfl | hk
      · rw [hfm]
        exact set_api_data_preserves mV ks none _ k .null (setF_same fm k _)
      · have h3 := ih (setF fm k0 (.resolved .null)) k hk
        by_cases hkk : k = k0
        · subst hkk
          rw [hfm]
          rw [setF_same] at h3
          exact h3
        · rw [setF_other fm k0 k _ hkk] at h3
          exact h3
    | pending =>
      rcases hk with rfl | hk
      · rw [hfm]
        exact set_api_data_preserves mV ks none _ k .null (setF_same fm k _)
      · have h3 := ih (setF fm k0 (.resolved .null)) k hk
        by_cases hkk : k = k0
        · subst hkk
          rw [hfm]
          rw [setF_same] at h3
          exact h3
        · rw [setF_other fm k0 k _ hkk] at h3
          exact h3

theorem chunkJob_fail_eq (mV : Nat) (fields : List String) (es : List EntState) :
    chunkJob mV fields failDict es =
      (es.map (fun e => ⟨e.id, (set_api_data mV fields none e.fm).1⟩), none) := by
  induction es with
  | nil => rfl
  | cons e es ih =>
    have h2 : set_api_data mV fields (failDict e.id) e.fm =
        ((set_api_data mV fields none e.fm).1, none) := by
      have h0 := set_api_data_none_ok mV fields e.fm
      cases hq : set_api_data mV fields none e.fm with
      | mk a b =>
        rw [hq] at h0
        simp only at h0
        subst h0
        exact hq
    unfold chunkJob
    rw [h2]
    simp only [ih, List.map_cons]

/-- C3 (amended): when the remote list call of a chunk fails, the job
resolves, for every entity of the chunk, every targeted field that was
not already resolved to `null`; fields already resolved keep their
previous value; and no exception escapes the job (so none can reach a
reader of those fields). -/
theorem chunk_failure_isolation (mV : Nat) (fields : List String) (es : List EntState) :
    (chunkJob mV fields failDict es).2 = none ∧
    (chunkJob mV fields failDict es).1 =
      es.map (fun e => ⟨e.id, (set_api_data mV fields none e.fm).1⟩) ∧
    ∀ e ∈ es, ∀ k ∈ fields,
      ((set_api_data mV fields none e.fm).1) k =
        match e.fm k with
        | .resolved v => .resolved v
        | _ => .resolved .null := by
  refine ⟨?_, ?_, ?_⟩
  · rw [chunkJob_fail_eq]
  · rw [chunkJob_fail_eq]
  · intro e _ k hk
    exact set_api_data_none_fields mV fields e.fm k hk

/-- Witness for C3 at a concrete chunk of one fresh entity and the video
field group. -/
theorem chunk_failure_isolation_witness :
    (chunkJob 60 ["title", "length", "channel"] failDict [⟨"v1", emptyFM⟩]).2 = none ∧
    (chunkJob 60 ["title", "length", "channel"] failDict [⟨"v1", emptyFM⟩]).1 =
      ([(⟨"v1", emptyFM⟩ : EntState)]).map
        (fun e => (⟨e.id, (set_api_data 60 ["title", "length", "channel"] none e.fm).1⟩ : EntState)) ∧
    ∀ e ∈ [(⟨"v1", emptyFM⟩ : EntState)], ∀ k ∈ ["title", "length", "channel"],
      ((set_api_data 60 ["title", "length", "channel"] none e.fm).1) k =
        match e.fm k with
        | .resolved v => .resolved v
        | _ => .resolved .null :=
  chunk_failure_isolation 60 ["title", "length", "channel"] [⟨"v1", emptyFM⟩]

/-- Counterexample to C3 as stated: an entity whose `title` was already
resolved (e.g. seeded from a search response) keeps that value after the
chunk's failure job — the targeted field `title` does NOT end up `null`. -/
theorem chunk_failure_isolation_cex :
    ((chunkJob 60 ["title", "length", "channel"] failDict
        [⟨"v1", setF emptyFM "title" (.resolved (.str "T"))⟩]).1.map
          (fun e => e.fm "title")) = [.resolved (.str "T")] ∧
    (FieldState.resolved (.str "T") ≠ .resolved .null) := by
  decide

theorem takeWhile_digits_delim (xs : List Char) (y : Char) (ys : List Char)
    (hx : ∀ c ∈ xs, c.isDigit) (hy : ¬ y.isDigit = true) :
    (xs ++ y :: ys).takeWhile Char.isDigit = xs ∧
      (xs ++ y :: ys).dropWhile Char.isDigit = y :: ys := by
  induction xs with
  | nil =>
    have hf : y.isDigit = false := by
      cases hdi : y.isDigit
      · rfl
      · exact absurd hdi hy
    simp [List.takeWhile, List.dropWhile, hf]
  | cons a as ih =>
    have ha : a.isDigit = true := hx a (by simp)
    have hrest : ∀ c ∈ as, c.isDigit = true := fun c hc => hx c (by simp [hc])
    have := ih hrest
    simp [List.takeWhile, List.dropWhile, ha, this.1, this.2]

theorem parseComp_hit (delim : Char) (xs ys : List Char)
    (h1 : xs ≠ []) (h2 : ∀ c ∈ xs, c.isDigit) (h3 : ¬ delim.isDigit = true) :
    parseComp delim (xs ++ delim :: ys) = (some (digitsToNat xs), ys) := by
  have h := takeWhile_digits_delim xs delim ys h2 h3
  unfold parseComp
  rw [h.1, h.2]
  simp [h1]

/-- The general duration-parsing shape: a full `PT<h>H<m>M<s>S` string
with nonempty digit components parses to the expected total seconds. -/
theorem parseDuration_full (hd md sd : List Char)
    (h1 : hd ≠ []) (h2 : ∀ c ∈ hd, c.isDigit)
    (h3 : md ≠ []) (h4 : ∀ c ∈ md, c.isDigit)
    (h5 : sd ≠ []) (h6 : ∀ c ∈ sd, c.isDigit) :
    parseDuration (String.mk ('P' :: 'T' :: (hd ++ 'H' :: (md ++ 'M' :: (sd ++ ['S']))))) =
      some (digitsToNat hd * 3600 + digitsToNat md * 60 + digitsToNat sd) := by
  have e1 : parseComp 'H' (hd ++ 'H' :: (md ++ 'M' :: (sd ++ ['S']))) =
      (some (digitsToNat hd), md ++ 'M' :: (sd ++ ['S'])) :=
    parseComp_hit 'H' hd _ h1 h2 (by decide)
  have e2 : parseComp 'M' (md ++ 'M' :: (sd ++ ['S'])) =
      (some (digitsToNat md), sd ++ ['S']) :=
    parseComp_hit 'M' md _ h3 h4 (by decide)
  have e3 : parseComp 'S' (sd ++ 'S' :: ([] : List Char)) =
      (some (digitsToNat sd), []) :=
    parseComp_hit 'S' sd _ h5 h6 (by decide)
  unfold parseDuration
  have hfind : findPT (String.mk ('P' :: 'T' ::
      (hd ++ 'H' :: (md ++ 'M' :: (sd ++ ['S']))))).toList =
      some (hd ++ 'H' :: (md ++ 'M' :: (sd ++ ['S']))) := rfl
  rw [hfind]
  simp only [e1, e2, e3, Option.getD_some]

/-- C4 (amended): the duration decoder maps `PT[nH][nM][nS]` to total
seconds with each missing component counting as zero (`PT1H2M10S` → 3730,
`PT5M` → 300, `PT0S` → 0, a `PT` string with no matching components → 0,
and the full general shape), and a successfully parsed duration resolves
the `length` field to that number; but a record from which the duration
field is entirely absent does NOT decode to 0 — the dict lookup raises
`KeyError('duration')` out of `_set_api_data` and the `length` field is
left pending. -/
theorem duration_decoding (mV : Nat) :
    (parseDuration "PT1H2M10S" = some 3730 ∧ parseDuration "PT5M" = some 300 ∧
     parseDuration "PT0S" = some 0 ∧ parseDuration "PT" = some 0) ∧
    (∀ hd md sd : List Char, hd ≠ [] → (∀ c ∈ hd, c.isDigit) →
      md ≠ [] → (∀ c ∈ md, c.isDigit) → sd ≠ [] → (∀ c ∈ sd, c.isDigit) →
      parseDuration (String.mk ('P' :: 'T' :: (hd ++ 'H' :: (md ++ 'M' :: (sd ++ ['S']))))) =
        some (digitsToNat hd * 3600 + digitsToNat md * 60 + digitsToNat sd)) ∧
    (∀ it cd s n, it.contentDetails = some cd → cd.duration = some s →
      parseDuration s = some n →
      ((set_api_data mV ["length"] (some it) emptyFM).1) "length" = .resolved (.num n)) ∧
    (∀ it cd, it.contentDetails = some cd → cd.duration = none →
      (set_api_data mV ["length"] (some it) emptyFM).2 = some (.keyError "duration") ∧
      ((set_api_data mV ["length"] (some it) emptyFM).1) "length" = .pending) := by
  refine ⟨⟨by decide, by decide, by decide, by decide⟩, parseDuration_full, ?_, ?_⟩
  · intro it cd s n hcd hs hn
    simp [set_api_data, set_api_data_one, decodeVal, emptyFM, hcd, hs, hn, setF]
  · intro it cd hcd hd
    constructor
    · simp [set_api_data, set_api_data_one, decodeVal, emptyFM, hcd, hd]
    · simp [set_api_data, set_api_data_one, decodeVal, emptyFM, hcd, hd, setF]

/-- Witness for C4 at concrete inputs: the general shape at `1H2M10S`,
the seconds-resolution at a concrete item, and the KeyError at an item
whose `contentDetails` has no `duration`. -/
theorem duration_decoding_witness :
    parseDuration (String.mk ('P' :: 'T' ::
        (['1'] ++ 'H' :: (['2'] ++ 'M' :: (['1', '0'] ++ ['S']))))) =
      some (digitsToNat ['1'] * 3600 + digitsToNat ['2'] * 60 + digitsToNat ['1', '0']) ∧
    ((set_api_data 60 ["length"]
        (some ⟨some "i", none, some ⟨some "PT5M", none⟩⟩) emptyFM).1) "length" =
      .resolved (.num 300) ∧
    (set_api_data 60 ["length"]
        (some ⟨some "i", none, some ⟨none, some 5⟩⟩) emptyFM).2 =
      some (.keyError "duration") :=
  ⟨(duration_decoding 60).2.1 ['1'] ['2'] ['1', '0'] (by decide) (by decide) (by decide)
      (by decide) (by decide) (by decide),
   (duration_decoding 60).2.2.1 ⟨some "i", none, some ⟨some "PT5M", none⟩⟩ ⟨some "PT5M", none⟩
      "PT5M" 300 (by decide) (by decide) (by decide),
   ((duration_decoding 60).2.2.2 ⟨some "i", none, some ⟨none, some 5⟩⟩ ⟨none, some 5⟩
      (by decide) (by decide)).1⟩

/-- Counterexample to C4 as stated: a record whose `contentDetails` has
no `duration` key does not decode to 0 — `_set_api_data(['length'], item)`
raises `KeyError('duration')` and leaves `length` pending, not resolved
to 0. -/
theorem duration_decoding_cex :
    ((set_api_data 60 ["length"]
        (some ⟨some "i", none, some ⟨none, some 5⟩⟩) emptyFM).1) "length" ≠
      .resolved (.num 0) ∧
    ((set_api_data 60 ["length"]
        (some ⟨some "i", none, some ⟨none, some 5⟩⟩) emptyFM).1) "length" = .pending ∧
    (set_api_data 60 ["length"]
        (some ⟨some "i", none, some ⟨none, some 5⟩⟩) emptyFM).2 =
      some (.keyError "duration") := by
  decide

theorem addOne_adds (fields : List String) (fm : FieldMap)
    (h : ∃ k ∈ fields, fm k = .unset) : (addOne fields fm).2 = true := by
  induction fields generalizing fm with
  | nil =>
    rcases h with ⟨k, hk, _⟩
    cases hk
  | cons k0 ks ih =>
    unfold addOne
    cases hfm : fm k0 with
    | unset => rfl
    | pending =>
      rcases h with ⟨k, hk, hu⟩
      rw [List.mem_cons] at hk
      rcases hk with rfl | hk
      · rw [hfm] at hu; cases hu
      · exact ih fm ⟨k, hk, hu⟩
    | resolved w =>
      rcases h with ⟨k, hk, hu⟩
      rw [List.mem_cons] at hk
      rcases hk with rfl | hk
      · rw [hfm] at hu; cases hu
      · exact ih fm ⟨k, hk, hu⟩

theorem add_futures_all (fields : List String) (ids : List String) (st : Store)
    (hnd : ids.Nodup) (hneed : ∀ id ∈ ids, ∃ k ∈ fields, st id k = .unset) :
    (add_futures fields ids st).2 = ids := by
  induction ids generalizing st with
  | nil => rfl
  | cons id ids ih =>
    rw [List.nodup_cons] at hnd
    unfold add_futures
    have hadd : (addOne fields (st id)).2 = true :=
      addOne_adds fields (st id) (hneed id (by simp))
    simp only [hadd, if_true]
    have : (add_futures fields ids (updStore st id (addOne fields (st id)).1)).2 = ids := by
      refine ih _ hnd.2 ?_
      intro id2 hid2
      have hne : id2 ≠ id := by
        intro e
        exact hnd.1 (e ▸ hid2)
      rw [show updStore st id (addOne fields (st id)).1 id2 = st id2 by simp [updStore, hne]]
      exact hneed id2 (by simp [hid2])
    rw [this]

theorem chunks50_join {α : Type} (l : List α) : (chunks50 l).flatten = l := by
  cases l with
  | nil =>
    rw [chunks50]
    rfl
  | cons x xs =>
    rw [chunks50]
    have ih := chunks50_join ((x :: xs).drop 50)
    rw [List.flatten_cons, ih]
    exact List.take_append_drop 50 (x :: xs)
termination_by l.length
decreasing_by
  simp only [List.length_drop, List.length_cons]
  omega

theorem chunks50_length {α : Type} (l : List α) :
    (chunks50 l).length = (l.length + 49) / 50 := by
  cases l with
  | nil =>
    rw [chunks50]
    simp
  | cons x xs =>
    rw [chunks50]
    have ih := chunks50_length ((x :: xs).drop 50)
    simp only [List.length_cons, ih, List.length_drop]
    omega
termination_by l.length
decreasing_by
  simp only [List.length_drop, List.length_cons]
  omega

theorem chunks50_mem {α : Type} (l : List α) :
    ∀ c ∈ chunks50 l, c ≠ [] ∧ c.length ≤ 50 := by
  cases l with
  | nil =>
    rw [chunks50]
    intro c hc
    cases hc
  | cons x xs =>
    rw [chunks50]
    intro c hc
    rw [List.mem_cons] at hc
    rcases hc with rfl | hc
    · constructor
      · simp [List.take]
      · exact List.length_take_le 50 (x :: xs)
    · exact chunks50_mem ((x :: xs).drop 50) c hc
termination_by l.length
decreasing_by
  simp only [List.length_drop, List.length_cons]
  omega

/-- C2: for a list of N entities that all still need the shared field
group (given in supply order, no aliasing), `load_info` filters them —
keeping all N in order — and issues exactly `ceil(N/50)` remote list
calls, whose sublists are the disjoint contiguous 50-slices of the
filtered list in supply order (their concatenation is the filtered list
itself), each nonempty and of size at most 50. -/
theorem load_info_chunking (fields ids : List String) (st : Store)
    (hnd : ids.Nodup) (hneed : ∀ id ∈ ids, ∃ k ∈ fields, st id k = .unset) :
    (add_futures fields ids st).2 = ids ∧
    (load_info_calls fields ids st).length = (ids.length + 49) / 50 ∧
    (load_info_calls fields ids st).flatten = ids ∧
    ∀ c ∈ load_info_calls fields ids st, c ≠ [] ∧ c.length ≤ 50 := by
  have hall := add_futures_all fields ids st hnd hneed
  refine ⟨hall, ?_, ?_, ?_⟩
  · rw [load_info_calls, hall, chunks50_length]
  · rw [load_info_calls, hall, chunks50_join]
  · rw [load_info_calls, hall]
    exact chunks50_mem ids

/-- Witness for C2 at a concrete input: two fresh entities and the video
field group give one remote call covering both, in order. -/
theorem load_info_chunking_witness :
    (add_futures ["title", "length", "channel"] ["a", "b"] (fun _ => emptyFM)).2 =
      ["a", "b"] ∧
    (load_info_calls ["title", "length", "channel"] ["a", "b"] (fun _ => emptyFM)).length =
      ((["a", "b"] : List String).length + 49) / 50 ∧
    (load_info_calls ["title", "length", "channel"] ["a", "b"] (fun _ => emptyFM)).flatten =
      ["a", "b"] ∧
    ∀ c ∈ load_info_calls ["title", "length", "channel"] ["a", "b"] (fun _ => emptyFM),
      c ≠ [] ∧ c.length ≤ 50 :=
  load_info_chunking ["title", "length", "channel"] ["a", "b"] (fun _ => emptyFM)
    (by decide) (by decide)

/-- C5 (amended): `get(kind, id)` returns the cached instance — the same
object, no new construction — as long as the key is still in the cache
(in particular two immediately consecutive calls always agree); but after
the key is evicted from the 400-entry LRU cache, a later `get` constructs
a fresh instance, so over time more than one instance can exist for the
same (kind, id). -/
theorem get_identity_cached (k : Nat) (st : CacheState) :
    (∀ tag, st.entries.lookup k = some tag →
      lruGet k st = (tag, ⟨(k, tag) :: st.entries.eraseP (fun p => p.1 == k), st.next⟩)) ∧
    (lruGet k ((lruGet k st).2)).1 = (lruGet k st).1 := by
  constructor
  · intro tag htag
    unfold lruGet
    rw [htag]
  · unfold lruGet
    cases hl : st.entries.lookup k with
    | some tag => simp [List.lookup]
    | none =>
      simp only
      by_cases hlen : cache_max_len < ((k, st.next) :: st.entries).length
      · rw [if_pos hlen]
        cases hes : st.entries with
        | nil =>
          rw [hes] at hlen
          simp [cache_max_len] at hlen
        | cons p ps =>
          rw [List.dropLast_cons₂]
          simp [List.lookup]
      · rw [if_neg hlen]
        simp [List.lookup]

/-- Witness for C5 at a concrete input: key 5 cached with tag 7. -/
theorem get_identity_cached_witness :
    lruGet 5 ⟨[(5, 7)], 8⟩ =
      (7, ⟨(5, 7) :: ([(5, 7)] : List (Nat × Nat)).eraseP (fun p => p.1 == 5), 8⟩) ∧
    (lruGet 5 ((lruGet 5 (⟨[(5, 7)], 8⟩ : CacheState)).2)).1 =
      (lruGet 5 (⟨[(5, 7)], 8⟩ : CacheState)).1 :=
  ⟨(get_identity_cached 5 ⟨[(5, 7)], 8⟩).1 7 (by decide),
   (get_identity_cached 5 ⟨[(5, 7)], 8⟩).2⟩

set_option maxRecDepth 20000 in
/-- Counterexample to C5 as stated: `get(0)` on a fresh cache creates
instance 0; after 400 further distinct ids the LRU cache (capacity 400)
evicts key 0, and the next `get(0)` creates a different instance (tag
401) — so two calls `get(kind, id)` with the same id returned different
instances and two instances existed for one id. -/
theorem get_identity_cached_cex :
    (lruGet 0 (runGets (List.range' 1 400 1) (lruGet 0 initCache).2)).1 ≠
      (lruGet 0 initCache).1 := by
  decide

/-- C6 (amended): if `pafy.new` raises (item deleted/restricted), the
`audio_url` future resolves to `null` and the job logs at error level
(not warning), raising nothing; if instead no stream is resolvable
(both `getbestaudio` and `getbest` return `None`), the job raises
`AttributeError` — swallowed by the pool's worker wrapper — and the
future is never resolved; in every case nothing is raised to a reader
of the field. -/
theorem audio_url_failure (p : PafyResult) :
    (p = .fail → audio_url_job p = ⟨.resolved .null, [.error], false⟩) ∧
    (∀ u b, p = .ok (some u) b → audio_url_job p = ⟨.resolved (.str u), [], false⟩) ∧
    (∀ u, p = .ok none (some u) → audio_url_job p = ⟨.resolved (.str u), [], false⟩) ∧
    (p = .ok none none →
      (audio_url_job p).field = .pending ∧ (audio_url_job p).raised = true) ∧
    ((audio_url_job p).raised = true → (audio_url_job p).field = .pending) := by
  refine ⟨?_, ?_, ?_, ?_, ?_⟩
  · intro h; subst h; rfl
  · intro u b h; subst h; rfl
  · intro u h; subst h; rfl
  · intro h; subst h; exact ⟨rfl, rfl⟩
  · intro h
    cases p with
    | fail => cases h
    | ok a b =>
      cases a with
      | some u => cases h
      | none =>
        cases b with
        | some u => cases h
        | none => rfl

/-- Witness for C6 at the concrete `pafy.new`-raises input. -/
theorem audio_url_failure_witness :
    audio_url_job .fail = ⟨.resolved .null, [.error], false⟩ :=
  (audio_url_failure .fail).1 rfl

/-- Counterexample to C6 as stated: for an item with no resolvable
stream the `audio_url` field does not resolve to `null` (it stays
pending forever), and even in the handled deleted/restricted case the
log record is at error level, not a warning. -/
theorem audio_url_failure_cex :
    (audio_url_job (.ok none none)).field ≠ .resolved .null ∧
    (audio_url_job (.ok none none)).field = .pending ∧
    (audio_url_job .fail).logs = [.error] ∧
    ¬ LogLevel.warning ∈ (audio_url_job .fail).logs := by
  decide

theorem pool_step_bound {s t : PoolState} (hstep : PoolStep s t)
    (h : s.active ≤ threads_max) : t.active ≤ threads_max := by
  cases hstep with
  | run =>
    simp only
    by_cases hlt : s.active < threads_max
    · rw [if_pos hlt]
      omega
    · rw [if_neg hlt]
      exact h
  | popJob hj => exact h
  | exitWorker hj ha =>
    simp only
    omega

/-- C8: in every reachable state of the thread pool's step relation
(submissions, job pops and worker exits), the active-worker count never
exceeds `threads_max` (15), no matter how many jobs are submitted in a
burst. -/
theorem pool_active_bounded {s : PoolState} (h : PoolReachable s) :
    s.active ≤ threads_max := by
  induction h with
  | init => exact Nat.zero_le _
  | step hr hstep ih => exact pool_step_bound hstep ih

/-- Witness for C8 at a concrete reachable state: one submission from
the initial state gives one active worker, within the bound. -/
theorem pool_active_bounded_witness : (⟨1, 1⟩ : PoolState).active ≤ threads_max :=
  pool_active_bounded
    (PoolReachable.step PoolReachable.init (by simpa using PoolStep.run ⟨0, 0⟩))

theorem videosRun_sound (maxV : Nat) (oracle : Nat → Option PageData)
    (hne : ∀ i d, oracle i = some d → d.items ≠ []) :
    ∀ (fuel : Nat) (pAv : Bool) (i : Nat) (acc : List String),
      maxV - acc.length < fuel →
      (pAv = false → tokStop oracle i) →
      ∃ acc2 cause i2,
        videosRun maxV oracle fuel pAv i acc = some (acc2, cause, i2) ∧
          (cause = .maxReached → maxV ≤ acc2.length) ∧
          (cause = .apiFail → oracle i2 = none) ∧
          (cause = .noToken → tokStop oracle i2) := by
  intro fuel
  induction fuel with
  | zero =>
    intro pAv i acc hf htok
    omega
  | succ fuel ih =>
    intro pAv i acc hf htok
    cases pAv with
    | false =>
      refine ⟨acc, .noToken, i, ?_, ?_, ?_, ?_⟩
      · simp [videosRun]
      · intro h; cases h
      · intro h; cases h
      · intro _; exact htok rfl
    | true =>
      by_cases hlen : maxV ≤ acc.length
      · refine ⟨acc, .maxReached, i, ?_, ?_, ?_, ?_⟩
        · simp [videosRun, hlen]
        · intro _; exact hlen
        · intro h; cases h
        · intro h; cases h
      · cases horc : oracle i with
        | none =>
          refine ⟨acc, .apiFail, i, ?_, ?_, ?_, ?_⟩
          · simp [videosRun, hlen, horc]
          · intro h; cases h
          · intro _; exact horc
          · intro h; cases h
        | some d =>
          have hlt : acc.length < maxV := Nat.not_le.mp hlen
          have hitems : 1 ≤ d.items.length :=
            List.length_pos.mpr (hne i d horc)
          have hf2 : maxV - (acc ++ d.items).length < fuel := by
            rw [List.length_append]
            omega
          have htok2 : ((tokenOrNone d.nextPageToken).isSome = false →
              tokStop oracle (i + 1)) := by
            intro hsome
            refine ⟨Nat.succ_pos i, d, ?_, ?_⟩
            · simpa using horc
            · exact Option.not_isSome_iff_eq_none.mp (by rw [hsome]; exact Bool.false_ne_true)
          obtain ⟨acc2, cause, i2, heq, hc1, hc2, hc3⟩ :=
            ih (tokenOrNone d.nextPageToken).isSome (i + 1) (acc ++ d.items) hf2 htok2
          refine ⟨acc2, cause, i2, ?_, hc1, hc2, hc3⟩
          simp [videosRun, hlen, horc, heq]

/-- C7: provided every successful member page is nonempty (what the
remote service delivers for a real collection), the member-expansion
loop terminates within `max_videos + 1` page requests, stopping exactly
by one of the three exit conditions — the accumulated count reached the
configured maximum, the last processed page carried no (falsy)
continuation token, or the remote call failed — whichever came first,
and the `_videos` future then resolves to the accumulated list. -/
theorem videos_pagination_terminates (maxV : Nat) (oracle : Nat → Option PageData)
    (hne : ∀ i d, oracle i = some d → d.items ≠ []) :
    ∃ acc cause i,
      videosRun maxV oracle (maxV + 1) true 0 [] = some (acc, cause, i) ∧
      videosField maxV oracle (maxV + 1) = .resolved (.strList acc) ∧
      (cause = .maxReached → maxV ≤ acc.length) ∧
      (cause = .apiFail → oracle i = none) ∧
      (cause = .noToken → tokStop oracle i) := by
  obtain ⟨acc, cause, i, heq, h1, h2, h3⟩ :=
    videosRun_sound maxV oracle hne (maxV + 1) true 0 []
      (by simp only [List.length_nil, Nat.sub_zero]; omega)
      (by intro h; cases h)
  refine ⟨acc, cause, i, heq, ?_, h1, h2, h3⟩
  rw [videosField, heq]

/-- Witness for C7 at a concrete input: an endless token-bearing
one-item-per-page collection with `max_videos = 2` still terminates. -/
theorem videos_pagination_terminates_witness :
    ∃ acc cause i,
      videosRun 2 oracleEndless (2 + 1) true 0 [] = some (acc, cause, i) ∧
      videosField 2 oracleEndless (2 + 1) = .resolved (.strList acc) ∧
      (cause = .maxReached → 2 ≤ acc.length) ∧
      (cause = .apiFail → oracleEndless i = none) ∧
      (cause = .noToken → tokStop oracleEndless i) :=
  videos_pagination_terminates 2 oracleEndless
    (by intro i d h; cases h; decide)

/-- C10: a falsy continuation token — absent/null (`none`) or the empty
string — makes `page = data.get('nextPageToken') or None` equal `None`,
so the loop terminates right after processing the current page; only a
non-empty token string makes the loop proceed to the next request. -/
theorem falsy_token_ends_pagination (maxV : Nat) (oracle : Nat → Option PageData)
    (fuel i : Nat) (acc : List String) (d : PageData)
    (h1 : oracle i = some d) (h3 : acc.length < maxV) :
    ((d.nextPageToken = none ∨ d.nextPageToken = some "") →
      videosRun maxV oracle (fuel + 2) true i acc =
        some (acc ++ d.items, .noToken, i + 1)) ∧
    (∀ s, d.nextPageToken = some s → s ≠ "" →
      videosRun maxV oracle (fuel + 2) true i acc =
        videosRun maxV oracle (fuel + 1) true (i + 1) (acc ++ d.items)) ∧
    (∀ t, tokenOrNone t = none ↔ (t = none ∨ t = some "")) := by
  have hnl : ¬ maxV ≤ acc.length := Nat.not_le.mpr h3
  refine ⟨?_, ?_, ?_⟩
  · intro htok
    have ht : tokenOrNone d.nextPageToken = none := by
      rcases htok with h | h <;> simp [tokenOrNone, h]
    rw [videosRun]
    simp [hnl, h1, ht, videosRun]
  · intro s hs hne2
    have ht : tokenOrNone d.nextPageToken = some s := by
      simp [tokenOrNone, hs, hne2]
    rw [videosRun]
    simp [hnl, h1, ht]
  · intro t
    cases t with
    | none => simp [tokenOrNone]
    | some s =>
      by_cases hs : s = ""
      · simp [tokenOrNone, hs]
      · simp [tokenOrNone, hs]

/-- Witness for C10 at a concrete input: a first page with no
continuation token ends pagination after that page. -/
theorem falsy_token_ends_pagination_witness :
    ((PageData.nextPageToken ⟨none, ["a", "b"]⟩ = none ∨
        PageData.nextPageToken ⟨none, ["a", "b"]⟩ = some "") →
      videosRun 5 oracleOnePage (0 + 2) true 0 [] =
        some (([] : List String) ++ PageData.items ⟨none, ["a", "b"]⟩, .noToken, 0 + 1)) ∧
    (∀ s, PageData.nextPageToken ⟨none, ["a", "b"]⟩ = some s → s ≠ "" →
      videosRun 5 oracleOnePage (0 + 2) true 0 [] =
        videosRun 5 oracleOnePage (0 + 1) true (0 + 1)
          (([] : List String) ++ PageData.items ⟨none, ["a", "b"]⟩)) ∧
    (∀ t, tokenOrNone t = none ↔ (t = none ∨ t = some "")) :=
  falsy_token_ends_pagination 5 oracleOnePage 0 0 [] ⟨none, ["a", "b"]⟩ rfl (by decide)

/-- C9: for a well-formed search response item, `search` leaves the
entity with `title` and `channel` (and, for playlists, `thumbnails`)
already resolved, without raising; a subsequent read of those fields
returns immediately and the `async_property` accessor does not trigger
any (batched) load for them. -/
theorem search_seeds_resolved (mV : Nat) (it : Item) (sn : Snippet) (t c : String)
    (hsn : it.snippet = some sn) (ht : sn.title = some t) (hc : sn.channelTitle = some c) :
    ((searchSeedVideo mV it emptyFM).2 = none ∧
     ((searchSeedVideo mV it emptyFM).1) "title" = .resolved (.str t) ∧
     ((searchSeedVideo mV it emptyFM).1) "channel" = .resolved (.str c) ∧
     readyNow "title" ((searchSeedVideo mV it emptyFM).1) = true ∧
     readyNow "channel" ((searchSeedVideo mV it emptyFM).1) = true ∧
     accessTriggersLoad "title" ((searchSeedVideo mV it emptyFM).1) = false ∧
     accessTriggersLoad "channel" ((searchSeedVideo mV it emptyFM).1) = false) ∧
    (∀ th, sn.thumbnails = some th →
      (searchSeedPlaylist mV it emptyFM).2 = none ∧
      ((searchSeedPlaylist mV it emptyFM).1) "title" = .resolved (.str t) ∧
      ((searchSeedPlaylist mV it emptyFM).1) "channel" = .resolved (.str c) ∧
      ((searchSeedPlaylist mV it emptyFM).1) "thumbnails" =
        .resolved (.strList ((th.filter
          (fun p => p.1 == "medium" || p.1 == "high")).map Prod.snd)) ∧
      readyNow "title" ((searchSeedPlaylist mV it emptyFM).1) = true ∧
      readyNow "channel" ((searchSeedPlaylist mV it emptyFM).1) = true ∧
      readyNow "thumbnails" ((searchSeedPlaylist mV it emptyFM).1) = true ∧
      accessTriggersLoad "title" ((searchSeedPlaylist mV it emptyFM).1) = false ∧
      accessTriggersLoad "channel" ((searchSeedPlaylist mV it emptyFM).1) = false ∧
      accessTriggersLoad "thumbnails" ((searchSeedPlaylist mV it emptyFM).1) = false) := by
  constructor
  · refine ⟨?_, ?_, ?_, ?_, ?_, ?_, ?_⟩ <;>
      simp [searchSeedVideo, set_api_data, set_api_data_one, decodeVal, emptyFM, setF,
        hsn, ht, hc, readyNow, accessTriggersLoad]
  · intro th hth
    refine ⟨?_, ?_, ?_, ?_, ?_, ?_, ?_, ?_, ?_, ?_⟩ <;>
      simp [searchSeedPlaylist, set_api_data, set_api_data_one, decodeVal, emptyFM, setF,
        hsn, ht, hc, hth, readyNow, accessTriggersLoad]

/-- Witness for C9 at a concrete well-formed search item. -/
theorem search_seeds_resolved_witness :
    ((searchSeedVideo 60 ⟨some "i", some ⟨some "T", some "C", some [("high", "u")]⟩, none⟩
        emptyFM).2 = none ∧
     ((searchSeedVideo 60 ⟨some "i", some ⟨some "T", some "C", some [("high", "u")]⟩, none⟩
        emptyFM).1) "title" = .resolved (.str "T") ∧
     ((searchSeedVideo 60 ⟨some "i", some ⟨some "T", some "C", some [("high", "u")]⟩, none⟩
        emptyFM).1) "channel" = .resolved (.str "C") ∧
     readyNow "title" ((searchSeedVideo 60
        ⟨some "i", some ⟨some "T", some "C", some [("high", "u")]⟩, none⟩ emptyFM).1) = true ∧
     readyNow "channel" ((searchSeedVideo 60
        ⟨some "i", some ⟨some "T", some "C", some [("high", "u")]⟩, none⟩ emptyFM).1) = true ∧
     accessTriggersLoad "title" ((searchSeedVideo 60
        ⟨some "i", some ⟨some "T", some "C", some [("high", "u")]⟩, none⟩ emptyFM).1) = false ∧
     accessTriggersLoad "channel" ((searchSeedVideo 60
        ⟨some "i", some ⟨some "T", some "C", some [("high", "u")]⟩, none⟩ emptyFM).1) = false) ∧
    (∀ th, Snippet.thumbnails ⟨some "T", some "C", some [("high", "u")]⟩ = some th →
      (searchSeedPlaylist 60 ⟨some "i", some ⟨some "T", some "C", some [("high", "u")]⟩, none⟩
        emptyFM).2 = none ∧
      ((searchSeedPlaylist 60 ⟨some "i", some ⟨some "T", some "C", some [("high", "u")]⟩, none⟩
        emptyFM).1) "title" = .resolved (.str "T") ∧
      ((searchSeedPlaylist 60 ⟨some "i", some ⟨some "T", some "C", some [("high", "u")]⟩, none⟩
        emptyFM).1) "channel" = .resolved (.str "C") ∧
      ((searchSeedPlaylist 60 ⟨some "i", some ⟨some "T", some "C", some [("high", "u")]⟩, none⟩
        emptyFM).1) "thumbnails" =
        .resolved (.strList ((th.filter
          (fun p => p.1 == "medium" || p.1 == "high")).map Prod.snd)) ∧
      readyNow "title" ((searchSeedPlaylist 60
        ⟨some "i", some ⟨some "T", some "C", some [("high", "u")]⟩, none⟩ emptyFM).1) = true ∧
      readyNow "channel" ((searchSeedPlaylist 60
        ⟨some "i", some ⟨some "T", some "C", some [("high", "u")]⟩, none⟩ emptyFM).1) = true ∧
      readyNow "thumbnails" ((searchSeedPlaylist 60
        ⟨some "i", some ⟨some "T", some "C", some [("high", "u")]⟩, none⟩ emptyFM).1) = true ∧
      accessTriggersLoad "title" ((searchSeedPlaylist 60
        ⟨some "i", some ⟨some "T", some "C", some [("high", "u")]⟩, none⟩ emptyFM).1) = false ∧
      accessTriggersLoad "channel" ((searchSeedPlaylist 60
        ⟨some "i", some ⟨some "T", some "C", some [("high", "u")]⟩, none⟩ emptyFM).1) = false ∧
      accessTriggersLoad "thumbnails" ((searchSeedPlaylist 60
        ⟨some "i", some ⟨some "T", some "C", some [("high", "u")]⟩, none⟩ emptyFM).1) = false) :=
  search_seeds_resolved 60 ⟨some "i", some ⟨some "T", some "C", some [("high", "u")]⟩, none⟩
    ⟨some "T", some "C", some [("high", "u")]⟩ "T" "C" rfl rfl rfl

end MopidyYoutube
